import Mathlib

/-!
Verification development for the tierra-rs artificial-life simulator.

This file gives a shallow embedding of the Rust sources (`instruction.rs`,
`memory.rs`, `organism.rs`, `cpu.rs`, `scheduler.rs`, `simulator.rs`,
`stats.rs`) and proves or refutes the frozen claims about them.

Modelling conventions:
* `usize` values become `Nat`; all the repository's address arithmetic is
  explicitly reduced `% N` exactly where the source reduces it.
* The soup's backing `Vec<Instruction>` becomes a `List Instruction`; the
  Rust `size` field always equals `data.len()`, so here `size` is
  `data.length`.
* Rust's RNG is modelled by explicit streams of draws (`Rng`): one stream
  of `gen_range` draws, one of `gen::<f64>()` draws (as rationals), one of
  `gen::<u8>()` draws, each with a position counter, consumed in exactly
  the order the source consumes them.
* A Rust `panic!` (out-of-bounds index) is modelled by an `Option`-valued
  result being `none` where the claim needs to distinguish panics; where a
  panic is unreachable for the inputs a theorem speaks about, total
  functions are used and the theorem's hypotheses keep the inputs inside
  the panic-free region.
-/

namespace Tierra

/-- The 27-opcode instruction set of `instruction.rs`, with the same
discriminant values as the Rust `#[repr(u8)]` enum. -/
inductive Instruction where
  | Nop0
  | Nop1
  | IfCZ
  | JmpB
  | JmpF
  | Call
  | Ret
  | MovDC
  | MovCD
  | Adr
  | AdrB
  | AdrF
  | IncA
  | IncB
  | IncC
  | DecC
  | MallocA
  | Divide
  | PushA
  | PushB
  | PushC
  | PushD
  | PopA
  | PopB
  | PopC
  | PopD
  | Halt
deriving DecidableEq, Repr, Inhabited

namespace Instruction

/-- `Instruction::from_u8`: decode a byte, invalid values become `Nop0`.
The Rust argument is a `u8`; every `u8` value `>= 27` takes the `_` arm,
and the `Nat` model extends that arm to all naturals `>= 27`. -/
def from_u8 (byte : Nat) : Instruction :=
  match byte with
  | 0 => .Nop0
  | 1 => .Nop1
  | 2 => .IfCZ
  | 3 => .JmpB
  | 4 => .JmpF
  | 5 => .Call
  | 6 => .Ret
  | 7 => .MovDC
  | 8 => .MovCD
  | 9 => .Adr
  | 10 => .AdrB
  | 11 => .AdrF
  | 12 => .IncA
  | 13 => .IncB
  | 14 => .IncC
  | 15 => .DecC
  | 16 => .MallocA
  | 17 => .Divide
  | 18 => .PushA
  | 19 => .PushB
  | 20 => .PushC
  | 21 => .PushD
  | 22 => .PopA
  | 23 => .PopB
  | 24 => .PopC
  | 25 => .PopD
  | 26 => .Halt
  | _ => .Nop0

/-- `Instruction::to_u8`: the `#[repr(u8)]` discriminant of the tag. -/
def to_u8 : Instruction → Nat
  | .Nop0 => 0
  | .Nop1 => 1
  | .IfCZ => 2
  | .JmpB => 3
  | .JmpF => 4
  | .Call => 5
  | .Ret => 6
  | .MovDC => 7
  | .MovCD => 8
  | .Adr => 9
  | .AdrB => 10
  | .AdrF => 11
  | .IncA => 12
  | .IncB => 13
  | .IncC => 14
  | .DecC => 15
  | .MallocA => 16
  | .Divide => 17
  | .PushA => 18
  | .PushB => 19
  | .PushC => 20
  | .PushD => 21
  | .PopA => 22
  | .PopB => 23
  | .PopC => 24
  | .PopD => 25
  | .Halt => 26

/-- `Instruction::is_template`: true for the two template nops. -/
def is_template : Instruction → Bool
  | .Nop0 | .Nop1 => true
  | _ => false

/-- `Instruction::complement`: defined only on templates. -/
def complement : Instruction → Option Instruction
  | .Nop0 => some .Nop1
  | .Nop1 => some .Nop0
  | _ => none

end Instruction

/-- The memory soup of `memory.rs`.  The Rust struct carries a separate
`size` field that is always `data.len()`; here `size` is represented by
`data.length` directly. -/
structure Memory where
  data : List Instruction
  allocated : List Bool
deriving DecidableEq, Repr

namespace Memory

/-- `Memory::size`. -/
def size (m : Memory) : Nat := m.data.length

/-- `Memory::new(size)`: soup of `Nop0`, nothing allocated. -/
def new (size : Nat) : Memory :=
  { data := List.replicate size .Nop0, allocated := List.replicate size false }

/-- `Memory::read`: read at `addr % size` (wraps around). -/
def read (m : Memory) (addr : Nat) : Instruction :=
  m.data.getD (addr % m.data.length) .Nop0

/-- `Memory::write`: write at `addr % size` (wraps around). -/
def write (m : Memory) (addr : Nat) (inst : Instruction) : Memory :=
  { m with data := m.data.set (addr % m.data.length) inst }

/-- `Memory::normalize_addr`. -/
def normalize_addr (m : Memory) (addr : Nat) : Nat := addr % m.size

/-- The inner comparison loop shared by the two template searches: the
candidate at `addr` matches when every cell of the complement agrees. -/
def matchesAt (m : Memory) (addr : Nat) (comp : List Instruction) : Bool :=
  (List.range comp.length).all fun i => m.read (addr + i) = comp.getD i .Nop0

/-- `Memory::find_template_forward`: scan offsets `1..=max_search`; the
candidate address for the draw `k` of `List.range max_search` is
`normalize_addr (start + (k+1))`; first match wins and the address just
past the matched complement is returned. -/
def find_template_forward (m : Memory) (start : Nat) (template : List Instruction)
    (max_search : Nat) : Option Nat :=
  if template.isEmpty then none
  else
    let comp := template.filterMap Instruction.complement
    if comp.isEmpty then none
    else
      match (List.range max_search).find? (fun k =>
          matchesAt m (m.normalize_addr (start + (k + 1))) comp) with
      | some k => some (m.normalize_addr (m.normalize_addr (start + (k + 1)) + comp.length))
      | none => none

/-- `Memory::find_template_backward`.  The Rust candidate address is
`start - offset` when `start >= offset` and `size - (offset - start)`
otherwise; `Nat` subtraction is truncated where the Rust `usize`
subtraction would overflow (that underflow can only occur when
`offset > start + size`, i.e. when `max_search` exceeds `start + size`,
a region the theorems below stay out of). -/
def find_template_backward (m : Memory) (start : Nat) (template : List Instruction)
    (max_search : Nat) : Option Nat :=
  if template.isEmpty then none
  else
    let comp := template.filterMap Instruction.complement
    if comp.isEmpty then none
    else
      match (List.range max_search).find? (fun k =>
          matchesAt m (if start ≥ k + 1 then start - (k + 1) else m.size - (k + 1 - start)) comp) with
      | some k =>
          some (m.normalize_addr
            ((if start ≥ k + 1 then start - (k + 1) else m.size - (k + 1 - start)) + comp.length))
      | none => none

/-- `Memory::is_range_free`. -/
def is_range_free (m : Memory) (start size : Nat) : Bool :=
  (List.range size).all fun i => !(m.allocated.getD (m.normalize_addr (start + i)) false)

/-- `Memory::mark_allocated`. -/
def mark_allocated (m : Memory) (start size : Nat) (flag : Bool) : Memory :=
  (List.range size).foldl
    (fun mem i => { mem with allocated := mem.allocated.set (mem.normalize_addr (start + i)) flag })
    m

/-- `Memory::free`. -/
def free (m : Memory) (start size : Nat) : Memory :=
  m.mark_allocated start size false

/-- `Memory::copy_block`:  the Rust function first buffers all `size`
reads from the pre-copy memory and then writes the buffer at
`dst..dst+size` in index order; since every buffered value is a read of
the original memory, the buffer entry `i` is exactly `m.read (src + i)`,
which is what this recursion writes, in the same order. -/
def copy_block (m : Memory) (src dst : Nat) : Nat → Memory
  | 0 => m
  | k + 1 => (m.copy_block src dst k).write (dst + k) (m.read (src + k))

/-- `Memory::count_free_cells`. -/
def count_free_cells (m : Memory) : Nat :=
  (m.allocated.filter fun x => !x).length

end Memory

/-- One organism (`organism.rs`).  Field names follow the Rust struct. -/
structure Organism where
  id : Nat
  ip : Nat
  address : Nat
  size : Nat
  ax : Nat
  bx : Nat
  cx : Nat
  dx : Nat
  stack : List Nat
  genome_length : Nat
  generation : Nat
  parent_id : Option Nat
  cycles : Nat
  errors : Nat
  alive : Bool
  energy : Nat
deriving DecidableEq, Repr

namespace Organism

/-- `Organism::new`. -/
def new (id address size generation : Nat) (parent_id : Option Nat) : Organism :=
  { id := id, ip := address, address := address, size := size,
    ax := 0, bx := 0, cx := 0, dx := 0, stack := [],
    genome_length := size, generation := generation, parent_id := parent_id,
    cycles := 0, errors := 0, alive := true, energy := 100 }

/-- `Organism::increment_ip`: `ip ← address + ((ip -sat address) + 1) % size`,
also counting one cycle. -/
def increment_ip (o : Organism) : Organism :=
  { o with ip := o.address + ((o.ip - o.address + 1) % o.size), cycles := o.cycles + 1 }

/-- `Organism::set_ip`: accept an in-bounds address, otherwise reflect it
into the home region by `address + (addr % size)`. -/
def set_ip (o : Organism) (addr : Nat) : Organism :=
  if o.address ≤ addr ∧ addr < o.address + o.size then { o with ip := addr }
  else { o with ip := o.address + addr % o.size }

/-- `Organism::push`: depth-10 stack, overflow bumps `errors` and is
reported in the second component (`false` = the Rust `Err`).  The Rust
`Vec` pushes at the back and pops from the back; the list pushes at the
front and pops from the front, the same LIFO discipline. -/
def push (o : Organism) (value : Nat) : Organism × Bool :=
  if o.stack.length ≥ 10 then ({ o with errors := o.errors + 1 }, false)
  else ({ o with stack := value :: o.stack }, true)

/-- `Organism::pop`: underflow bumps `errors` and yields `none` (the Rust
`Err`). -/
def pop (o : Organism) : Organism × Option Nat :=
  match o.stack with
  | [] => ({ o with errors := o.errors + 1 }, none)
  | v :: rest => ({ o with stack := rest }, some v)

/-- `Organism::kill`. -/
def kill (o : Organism) : Organism := { o with alive := false }

/-- `Organism::reset_energy`. -/
def reset_energy (o : Organism) (amount : Nat) : Organism := { o with energy := amount }

/-- `Organism::is_address_valid`: the non-modular home-region test. -/
def is_address_valid (o : Organism) (addr : Nat) : Bool :=
  o.address ≤ addr ∧ addr < o.address + o.size

end Organism

/-- `ExecutionResult` from `cpu.rs`. -/
inductive ExecutionResult where
  | Continue
  | Dead
  | Malloc (size : Nat)
  | Divide
deriving DecidableEq, Repr

/-- `CPU::read_template`: collect up to 10 template opcodes starting at
the organism's current IP, without moving the organism's IP. -/
def read_template (o : Tierra.Organism) (m : Memory) : List Instruction :=
  go o.ip 10
where
  /-- The `for _ in 0..10` loop of `read_template`, with `pos` the local
  cursor. -/
  go (pos : Nat) : Nat → List Instruction
    | 0 => []
    | fuel + 1 =>
        let inst := m.read pos
        if inst.is_template then inst :: go (m.normalize_addr (pos + 1)) fuel
        else []

/-- `CPU::execute_instruction`.  The CPU's `max_search` field is passed
explicitly; the `_rng` argument of the Rust function is unused by the
source and therefore absent.  The `advance_ip` flag of the source is
translated by ending every arm that leaves it `true` with
`increment_ip`. -/
def execute_instruction (max_search : Nat) (org : Organism) (mem : Memory) :
    Organism × Memory × ExecutionResult :=
  if !org.alive then (org, mem, .Dead)
  else
    match mem.read org.ip with
    | .Nop0 => (org.increment_ip, mem, .Continue)
    | .Nop1 => (org.increment_ip, mem, .Continue)
    | .IfCZ =>
        if org.cx ≠ 0 then (org.increment_ip.increment_ip, mem, .Continue)
        else (org.increment_ip, mem, .Continue)
    | .JmpB =>
        let org1 := org.increment_ip
        let template := read_template org1 mem
        match mem.find_template_backward org1.ip template max_search with
        | some addr => (org1.set_ip addr, mem, .Continue)
        | none => ({ org1 with errors := org1.errors + 1 }.increment_ip, mem, .Continue)
    | .JmpF =>
        let org1 := org.increment_ip
        let template := read_template org1 mem
        match mem.find_template_forward org1.ip template max_search with
        | some addr => (org1.set_ip addr, mem, .Continue)
        | none => ({ org1 with errors := org1.errors + 1 }.increment_ip, mem, .Continue)
    | .Call =>
        let org1 := org.increment_ip
        let template := read_template org1 mem
        match mem.find_template_forward org1.ip template max_search with
        | some addr =>
            let (org2, ok) := org1.push org1.ip
            if ok then (org2.set_ip addr, mem, .Continue)
            else (org2.increment_ip, mem, .Continue)
        | none => ({ org1 with errors := org1.errors + 1 }.increment_ip, mem, .Continue)
    | .Ret =>
        match org.pop with
        | (org1, some addr) => (org1.set_ip addr, mem, .Continue)
        | (org1, none) => (org1.increment_ip, mem, .Continue)
    | .MovDC =>
        let addr := org.address + org.cx % org.size
        ({ org with dx := (mem.read addr).to_u8 }.increment_ip, mem, .Continue)
    | .MovCD =>
        let addr := org.address + org.cx % org.size
        let inst := Instruction.from_u8 (org.dx % 27)
        if org.is_address_valid addr then (org.increment_ip, mem.write addr inst, .Continue)
        else ({ org with errors := org.errors + 1 }.increment_ip, mem, .Continue)
    | .Adr => ({ org with ax := org.ip }.increment_ip, mem, .Continue)
    | .AdrB =>
        let org1 := org.increment_ip
        let template := read_template org1 mem
        match mem.find_template_backward org1.ip template max_search with
        | some addr => ({ org1 with ax := addr }, mem, .Continue)
        | none => ({ org1 with errors := org1.errors + 1 }, mem, .Continue)
    | .AdrF =>
        let org1 := org.increment_ip
        let template := read_template org1 mem
        match mem.find_template_forward org1.ip template max_search with
        | some addr => ({ org1 with ax := addr }, mem, .Continue)
        | none => ({ org1 with errors := org1.errors + 1 }, mem, .Continue)
    | .IncA => ({ org with ax := (org.ax + 1) % mem.size }.increment_ip, mem, .Continue)
    | .IncB => ({ org with bx := (org.bx + 1) % mem.size }.increment_ip, mem, .Continue)
    | .IncC => ({ org with cx := (org.cx + 1) % mem.size }.increment_ip, mem, .Continue)
    | .DecC =>
        ({ org with cx := if org.cx > 0 then org.cx - 1 else mem.size - 1 }.increment_ip,
          mem, .Continue)
    | .MallocA => (org, mem, .Malloc org.ax)
    | .Divide => (org, mem, .Divide)
    | .PushA => ((org.push org.ax).1.increment_ip, mem, .Continue)
    | .PushB => ((org.push org.bx).1.increment_ip, mem, .Continue)
    | .PushC => ((org.push org.cx).1.increment_ip, mem, .Continue)
    | .PushD => ((org.push org.dx).1.increment_ip, mem, .Continue)
    | .PopA =>
        let (org1, v) := org.pop
        ({ org1 with ax := v.getD 0 }.increment_ip, mem, .Continue)
    | .PopB =>
        let (org1, v) := org.pop
        ({ org1 with bx := v.getD 0 }.increment_ip, mem, .Continue)
    | .PopC =>
        let (org1, v) := org.pop
        ({ org1 with cx := v.getD 0 }.increment_ip, mem, .Continue)
    | .PopD =>
        let (org1, v) := org.pop
        ({ org1 with dx := v.getD 0 }.increment_ip, mem, .Continue)
    | .Halt => (org.kill, mem, .Dead)

/-- Explicit model of the simulator's RNG: three streams of draws with
position counters, consumed in source order.  `ints` models successive
`gen_range(0..bound)` draws (reduced `% bound` so the draw is uniform in
the requested range), `floats` models `gen::<f64>()` draws from `[0,1)`
as rationals, `bytes` models `gen::<u8>()` draws. -/
structure Rng where
  ints : Nat → Nat
  floats : Nat → Rat
  bytes : Nat → Nat
  intPos : Nat
  floatPos : Nat
  bytePos : Nat

/-- One `gen_range(0..bound)` draw. -/
def Rng.genRange (r : Rng) (bound : Nat) : Nat × Rng :=
  (r.ints r.intPos % bound, { r with intPos := r.intPos + 1 })

/-- One `gen::<f64>()` draw. -/
def Rng.genFloat (r : Rng) : Rat × Rng :=
  (r.floats r.floatPos, { r with floatPos := r.floatPos + 1 })

/-- One `gen::<u8>()` draw. -/
def Rng.genByte (r : Rng) : Nat × Rng :=
  (r.bytes r.bytePos % 256, { r with bytePos := r.bytePos + 1 })

namespace Memory

/-- The `for _ in 0..100` random-probe loop of `Memory::allocate`: each
iteration consumes one `gen_range(0..self.size)` draw and accepts the
first free range. -/
def allocateTries (m : Memory) (size : Nat) (r : Rng) : Nat → Option Nat × Memory × Rng
  | 0 => (none, m, r)
  | fuel + 1 =>
      let (start, r') := r.genRange m.size
      if m.is_range_free start size then (some start, m.mark_allocated start size true, r')
      else allocateTries m size r' fuel

/-- `Memory::allocate`: reject `size == 0` and `size > self.size`, probe
100 random start cells, then fall back to a linear scan from 0. -/
def allocate (m : Memory) (size : Nat) (r : Rng) : Option Nat × Memory × Rng :=
  if size = 0 ∨ size > m.size then (none, m, r)
  else
    match m.allocateTries size r 100 with
    | (some start, m', r') => (some start, m', r')
    | (none, _, r') =>
        match (List.range m.size).find? (fun start => m.is_range_free start size) with
        | some start => (some start, m.mark_allocated start size true, r')
        | none => (none, m, r')

/-- `Memory::maybe_mutate`: with probability `mutation_rate`, write a
random opcode in `0..27` at `addr` (two RNG draws consumed on the
mutating path, one otherwise). -/
def maybe_mutate (m : Memory) (addr : Nat) (mutation_rate : Rat) (r : Rng) : Memory × Rng :=
  let (f, r') := r.genFloat
  if f < mutation_rate then
    let (b, r'') := r'.genByte
    (m.write addr (Instruction.from_u8 (b % 27)), r'')
  else (m, r')

end Memory

/-- `Statistics` from `stats.rs`.  The two `HashMap` histograms are
modelled as count functions (the hash-map key order is never observed by
the source). -/
structure Statistics where
  total_instructions : Nat
  total_organisms_created : Nat
  total_organisms_died : Nat
  current_population : Nat
  total_mutations : Nat
  failed_replications : Nat
  successful_replications : Nat
  size_distribution : Nat → Nat
  generation_distribution : Nat → Nat
  memory_used : Nat
  memory_total : Nat
  population_history : List Nat
  max_history_size : Nat

namespace Statistics

/-- `Statistics::new`. -/
def new (memory_total : Nat) : Statistics :=
  { total_instructions := 0, total_organisms_created := 0, total_organisms_died := 0,
    current_population := 0, total_mutations := 0, failed_replications := 0,
    successful_replications := 0, size_distribution := fun _ => 0,
    generation_distribution := fun _ => 0, memory_used := 0, memory_total := memory_total,
    population_history := [], max_history_size := 1000 }

/-- `Statistics::record_instruction`. -/
def record_instruction (s : Statistics) : Statistics :=
  { s with total_instructions := s.total_instructions + 1 }

/-- `Statistics::record_birth`. -/
def record_birth (s : Statistics) (size generation : Nat) : Statistics :=
  { s with total_organisms_created := s.total_organisms_created + 1,
           current_population := s.current_population + 1,
           size_distribution := fun n => if n = size then s.size_distribution n + 1 else s.size_distribution n,
           generation_distribution := fun n => if n = generation then s.generation_distribution n + 1 else s.generation_distribution n }

/-- `Statistics::record_death` (saturating decrements; the removal of
zero-count histogram entries is invisible in the count-function model). -/
def record_death (s : Statistics) (size generation : Nat) : Statistics :=
  { s with total_organisms_died := s.total_organisms_died + 1,
           current_population := s.current_population - 1,
           size_distribution := fun n => if n = size then s.size_distribution n - 1 else s.size_distribution n,
           generation_distribution := fun n => if n = generation then s.generation_distribution n - 1 else s.generation_distribution n }

/-- `Statistics::record_mutation`. -/
def record_mutation (s : Statistics) : Statistics :=
  { s with total_mutations := s.total_mutations + 1 }

/-- `Statistics::record_replication`. -/
def record_replication (s : Statistics) (success : Bool) : Statistics :=
  if success then { s with successful_replications := s.successful_replications + 1 }
  else { s with failed_replications := s.failed_replications + 1 }

/-- `Statistics::update_memory_usage`. -/
def update_memory_usage (s : Statistics) (used : Nat) : Statistics :=
  { s with memory_used := used }

/-- `Statistics::update_history`: bounded FIFO, evicting from the front. -/
def update_history (s : Statistics) (population : Nat) : Statistics :=
  let h := s.population_history ++ [population]
  { s with population_history := if h.length > s.max_history_size then h.drop 1 else h }

end Statistics

/-- `Scheduler::select_next`'s search loop.  The Rust loop checks
`organisms[current]` (panicking when `current` is out of bounds —
modelled by the outer `none`), returns the index on the first live
organism, and breaks with `None` after wrapping back to the start, i.e.
after exactly `organisms.len()` probes; `fuel` counts the probes that
remain. -/
def selectLoop (organisms : List Organism) (cur : Nat) : Nat → Option (Option Nat)
  | 0 => some none
  | fuel + 1 =>
      match organisms.get? cur with
      | none => none
      | some o =>
          if o.alive then some (some cur)
          else selectLoop organisms ((cur + 1) % organisms.length) fuel

/-- `Scheduler::select_next` (`scheduler.rs`).  `randomize` is the
outcome of the 10% coin flip and `randIdx` the `gen_range(0..len)` draw
used when it fires.  The outer `Option` is `none` exactly when the Rust
code panics on an out-of-range `current_index`; otherwise the result
carries the selected index (if any), the updated population (energy
reset) and the updated cursor. -/
def select_next (organisms : List Organism) (current_index : Nat) (time_slice : Nat)
    (randomize : Bool) (randIdx : Nat) : Option (Option Nat × List Organism × Nat) :=
  if organisms.isEmpty then some (none, organisms, current_index)
  else
    let cur0 := if randomize then randIdx % organisms.length else current_index
    match selectLoop organisms cur0 organisms.length with
    | none => none
    | some none => some (none, organisms, cur0)
    | some (some idx) =>
        match organisms.get? idx with
        | none => none
        | some o =>
            some (some idx, organisms.set idx (o.reset_energy time_slice),
              (idx + 1) % organisms.length)

/-- `Scheduler::reap_dead`: retain the live organisms in order. -/
def reap_dead (organisms : List Organism) : List Organism :=
  organisms.filter fun o => o.alive

/-- `SimulationConfig` from `simulator.rs` (the mutation rate as a
rational in place of the `f64`). -/
structure SimulationConfig where
  memory_size : Nat
  mutation_rate : Rat
  max_population : Nat
  time_slice : Nat

/-- The `Simulator` state (`simulator.rs`): soup, population, CPU
(`max_search` is its only field), scheduler cursor, statistics, config,
RNG and the fresh-id counter. -/
structure Simulator where
  memory : Memory
  organisms : List Organism
  max_search : Nat
  schedCursor : Nat
  stats : Statistics
  config : SimulationConfig
  rng : Rng
  next_organism_id : Nat

namespace Simulator

/-- Apply `f` to `organisms[idx]` in place, the way the Rust code mutates
`self.organisms[organism_idx]` through an index (a no-op on an
out-of-range index, which the callers below never produce). -/
def modifyOrganism (sim : Simulator) (idx : Nat) (f : Organism → Organism) : Simulator :=
  match sim.organisms.get? idx with
  | some o => { sim with organisms := sim.organisms.set idx (f o) }
  | none => sim

/-- The genome-copy loop of `Simulator::handle_divide`: for each `i`
below the count, read `parent_addr + i` from the *current* soup, write it
at `offspring_addr + i`, then with probability `mutation_rate` call
`maybe_mutate(offspring_addr + i, 1.0)` (which always rewrites, since
every `f64` draw is below `1.0`) and record a mutation. -/
def divideCopy (parent_addr offspring_addr : Nat) (mutation_rate : Rat) :
    Nat → Nat → Memory × Rng × Statistics → Memory × Rng × Statistics
  | _, 0, acc => acc
  | i, fuel + 1, (mem, r, st) =>
      let inst := mem.read (parent_addr + i)
      let mem := mem.write (offspring_addr + i) inst
      let (f, r) := r.genFloat
      if f < mutation_rate then
        let (mem, r) := mem.maybe_mutate (offspring_addr + i) 1 r
        divideCopy parent_addr offspring_addr mutation_rate (i + 1) fuel
          (mem, r, st.record_mutation)
      else
        divideCopy parent_addr offspring_addr mutation_rate (i + 1) fuel (mem, r, st)

/-- `Simulator::handle_divide`: reject when the population (live or dead)
is at `max_population` or `cx` is `0` or above `memory_size / 10`;
otherwise copy `min(parent.size, cx)` cells from the parent region to
`bx`, mutating each with probability `mutation_rate`, and append a fresh
organism at `(bx, cx)` with generation `parent.generation + 1`.  The
allocation bitmap is deliberately not touched. -/
def handle_divide (sim : Simulator) (parent_idx : Nat) : Simulator :=
  match sim.organisms.get? parent_idx with
  | none => sim
  | some parent =>
      if sim.organisms.length ≥ sim.config.max_population then
        { sim with stats := sim.stats.record_replication false }
      else
        let offspring_addr := parent.bx
        let offspring_size := parent.cx
        if offspring_size = 0 ∨ offspring_size > sim.config.memory_size / 10 then
          { sim with stats := sim.stats.record_replication false }
        else
          let (mem, r, st) := divideCopy parent.address offspring_addr
            sim.config.mutation_rate 0 (min parent.size offspring_size)
            (sim.memory, sim.rng, sim.stats)
          let offspring := Organism.new sim.next_organism_id offspring_addr offspring_size
            (parent.generation + 1) (some parent.id)
          { sim with
            memory := mem, rng := r,
            stats := (st.record_birth offspring_size (parent.generation + 1)).record_replication true,
            organisms := sim.organisms ++ [offspring],
            next_organism_id := sim.next_organism_id + 1 }

/-- The `Malloc(size)` arm of `Simulator::step`'s effect match: allocate,
store the base in `bx` on success or bump `errors` on failure, then
advance the IP past the `MallocA` exactly once. -/
def resolveMalloc (sim : Simulator) (idx : Nat) (size : Nat) : Simulator :=
  let (res, mem, r) := sim.memory.allocate size sim.rng
  let sim := { sim with memory := mem, rng := r }
  let sim :=
    match res with
    | some addr => sim.modifyOrganism idx (fun o => { o with bx := addr })
    | none => sim.modifyOrganism idx (fun o => { o with errors := o.errors + 1 })
  sim.modifyOrganism idx Organism.increment_ip

/-- The `Divide` arm of `Simulator::step`'s effect match: reproduce, then
advance the IP past the `Divide` exactly once. -/
def resolveDivide (sim : Simulator) (idx : Nat) : Simulator :=
  (sim.handle_divide idx).modifyOrganism idx Organism.increment_ip

/-- `Simulator::find_next_organism`: round-robin from
`scheduler.current_index % len` to the first live organism, whose energy
is reset to the time slice; the cursor advances past it. -/
def find_next_organism (sim : Simulator) : Option (Nat × Simulator) :=
  if sim.organisms.length = 0 then none
  else
    let current := sim.schedCursor % sim.organisms.length
    match (List.range sim.organisms.length).find? (fun off =>
        ((sim.organisms.get? ((current + off) % sim.organisms.length)).map
          (fun o => o.alive)).getD false) with
    | some off =>
        let idx := (current + off) % sim.organisms.length
        some (idx,
          { (sim.modifyOrganism idx fun o => o.reset_energy sim.config.time_slice) with
            schedCursor := (idx + 1) % sim.organisms.length })
    | none => none

/-- The `for _ in 0..time_slice` slice loop of `Simulator::step`: break
when the organism is dead or out of energy, otherwise consume one energy
unit, dispatch the CPU, record the instruction, and resolve the returned
effect (`Dead` and `Divide` break out of the slice; `Malloc` does not). -/
def stepSlice (idx : Nat) : Nat → Simulator → Simulator
  | 0, sim => sim
  | fuel + 1, sim =>
      match sim.organisms.get? idx with
      | none => sim
      | some org =>
          if !org.alive then sim
          else if org.energy = 0 then sim
          else
            let org := { org with energy := org.energy - 1 }
            let (org', mem', result) := execute_instruction sim.max_search org sim.memory
            let sim := { sim with
              memory := mem'
              organisms := sim.organisms.set idx org'
              stats := sim.stats.record_instruction }
            match result with
            | .Continue => stepSlice idx fuel sim
            | .Dead =>
                { sim with
                  stats := sim.stats.record_death org'.size org'.generation
                  memory := sim.memory.free org'.address org'.size }
            | .Malloc size => stepSlice idx fuel (sim.resolveMalloc idx size)
            | .Divide => sim.resolveDivide idx

/-- `Simulator::update_stats`. -/
def update_stats (sim : Simulator) : Simulator :=
  let alive_count := (sim.organisms.filter fun o => o.alive).length
  let memory_used := sim.memory.size - sim.memory.count_free_cells
  { sim with stats := (sim.stats.update_memory_usage memory_used).update_history alive_count }

/-- `Simulator::step`: run one time slice for the scheduled organism,
reap every 1000 instructions, refresh the statistics every 100. -/
def step (sim : Simulator) : Simulator :=
  let sim :=
    match sim.find_next_organism with
    | none => sim
    | some (idx, sim') => stepSlice idx sim'.config.time_slice sim'
  let sim :=
    if sim.stats.total_instructions % 1000 = 0 then
      { sim with organisms := reap_dead sim.organisms }
    else sim
  if sim.stats.total_instructions % 100 = 0 then sim.update_stats else sim

end Simulator

/-! ## Concrete fixtures used by witnesses and counterexamples -/

/-- A deterministic RNG-stream fixture: every `gen_range` draw is 0,
every float draw is 1 (so it is never below a zero mutation rate), every
byte draw is 0. -/
def rng0 : Rng :=
  { ints := fun _ => 0, floats := fun _ => 1, bytes := fun _ => 0,
    intPos := 0, floatPos := 0, bytePos := 0 }

/-- An 8-cell soup whose first opcode is `MovCD`. -/
def mem_movcd : Memory :=
  { data := [.MovCD, .Nop0, .Nop0, .Nop0, .Nop0, .Nop0, .Nop0, .Nop0],
    allocated := List.replicate 8 false }

/-- An organism homed at `[0,4)` about to execute the `MovCD` at cell 0,
with `cx = 10` pointing outside its home region and `dx = 26` (the
`Halt` opcode). -/
def org_movcd : Organism :=
  { id := 0, ip := 0, address := 0, size := 4, ax := 0, bx := 0, cx := 10, dx := 26,
    stack := [], genome_length := 4, generation := 0, parent_id := none,
    cycles := 0, errors := 0, alive := true, energy := 1 }

/-- A 10-cell soup: a `JmpF` at cell 0 followed by the two-opcode
template `Nop0 Nop0`, with no `Nop1 Nop1` complement anywhere. -/
def mem_jmpf : Memory :=
  { data := [.JmpF, .Nop0, .Nop0, .Halt, .Halt, .Halt, .Halt, .Halt, .Halt, .Halt],
    allocated := List.replicate 10 false }

/-- An organism owning the whole `mem_jmpf` soup, about to execute the
`JmpF`. -/
def org_jmpf : Organism :=
  { id := 0, ip := 0, address := 0, size := 10, ax := 0, bx := 0, cx := 0, dx := 0,
    stack := [], genome_length := 10, generation := 0, parent_id := none,
    cycles := 0, errors := 0, alive := true, energy := 1 }

/-- A 256-cell soup: a `JmpB` at cell 249 followed by the two-opcode
template `Nop0 Nop0` at 250 and 251, with no `Nop1 Nop1` complement
anywhere (the start index 250 keeps all 200 backward probes away from
the `usize`-underflow region of the source). -/
def mem_jmpb : Memory :=
  { data := (((List.replicate 256 Instruction.Halt).set 249 .JmpB).set 250 .Nop0).set 251 .Nop0,
    allocated := List.replicate 256 false }

/-- An organism owning the whole `mem_jmpb` soup, about to execute the
`JmpB` at cell 249. -/
def org_jmpb : Organism :=
  { id := 0, ip := 249, address := 0, size := 256, ax := 0, bx := 0, cx := 0, dx := 0,
    stack := [], genome_length := 256, generation := 0, parent_id := none,
    cycles := 0, errors := 0, alive := true, energy := 1 }

/-- A 30-cell soup whose first opcode is `Divide`. -/
def mem_div : Memory :=
  { data := (List.replicate 30 Instruction.Nop0).set 0 .Divide,
    allocated := List.replicate 30 false }

/-- A parent organism homed at `[0,3)` with its IP on the `Divide` at
cell 0, `bx = 20` and `cx = 3`. -/
def org_divA : Organism :=
  { id := 0, ip := 0, address := 0, size := 3, ax := 0, bx := 20, cx := 3, dx := 0,
    stack := [], genome_length := 3, generation := 0, parent_id := none,
    cycles := 0, errors := 0, alive := true, energy := 7 }

/-- A bystander organism homed at `[20,23)`. -/
def org_divB : Organism :=
  { id := 1, ip := 20, address := 20, size := 3, ax := 0, bx := 0, cx := 0, dx := 0,
    stack := [], genome_length := 3, generation := 0, parent_id := none,
    cycles := 0, errors := 0, alive := true, energy := 0 }

/-- A simulator state in which the scheduled parent `org_divA` executes
`Divide` with `bx = 20` — the home region of the live bystander
`org_divB` — and `cx = 3`, within all of `handle_divide`'s guards. -/
def sim_div : Simulator :=
  { memory := mem_div, organisms := [org_divA, org_divB], max_search := 200, schedCursor := 0,
    stats := Statistics.new 30,
    config := { memory_size := 30, mutation_rate := 0, max_population := 10, time_slice := 1 },
    rng := rng0, next_organism_id := 2 }

/-- A simulator state in which the scheduled parent executes `Divide`
with `bx = 28` and `cx = 3` in a 30-cell soup, so the child's region
`[28,31)` runs past the end of memory. -/
def sim_div_oob : Simulator :=
  { memory := mem_div, organisms := [{ org_divA with bx := 28 }], max_search := 200,
    schedCursor := 0, stats := Statistics.new 30,
    config := { memory_size := 30, mutation_rate := 0, max_population := 10, time_slice := 1 },
    rng := rng0, next_organism_id := 1 }

/-- A 4-cell soup whose first opcode is `MallocA`. -/
def mem_malloc : Memory :=
  { data := [.MallocA, .Nop0, .Nop0, .Nop0], allocated := List.replicate 4 false }

/-- The per-organism part of the spec's bounds invariant that survives
on the code: a positive home region containing the IP,
`address ≤ ip < address + size`. -/
def ipInv (o : Organism) : Prop :=
  0 < o.size ∧ o.address ≤ o.ip ∧ o.ip < o.address + o.size

instance (o : Organism) : Decidable (ipInv o) := by
  unfold ipInv
  infer_instance

/-- The population-wide form of `ipInv`: every live organism's IP sits
inside its (positive) home region. -/
def popInv (l : List Organism) : Prop :=
  ∀ o ∈ l, o.alive = true → ipInv o

instance (l : List Organism) : Decidable (popInv l) := by
  unfold popInv
  exact List.decidableBAll _ l

/-! ## Helper lemmas -/

theorem Memory.write_length (m : Memory) (a : Nat) (v : Instruction) :
    (m.write a v).data.length = m.data.length := by
  simp [Memory.write]

theorem Memory.read_write (m : Memory) (a b : Nat) (v : Instruction) (h : 0 < m.data.length) :
    (m.write a v).read b =
      if b % m.data.length = a % m.data.length then v else m.read b := by
  unfold Memory.read Memory.write
  simp only [List.length_set, List.getD_eq_getElem?_getD]
  by_cases hc : b % m.data.length = a % m.data.length
  · rw [if_pos hc, hc, List.getElem?_set_eq_of_lt _ (Nat.mod_lt _ h)]
    rfl
  · rw [if_neg hc, List.getElem?_set_ne (fun hax => hc hax.symm)]

theorem Memory.copy_block_length (m : Memory) (src dst : Nat) :
    ∀ k, (m.copy_block src dst k).data.length = m.data.length := by
  intro k
  induction k with
  | zero => rfl
  | succ k ih => rw [Memory.copy_block, Memory.write_length, ih]

theorem Memory.read_congr_mod (m : Memory) (a b : Nat)
    (h : a % m.data.length = b % m.data.length) : m.read a = m.read b := by
  unfold Memory.read
  rw [h]

/-! ## C7 -/

/-- C7: for every `src`, `dst` and every `k`, `copy_block(src, dst, k)`
followed by reads at `dst..dst+k` returns exactly the opcodes that reads
at `src..src+k` returned before the copy, with all addresses reduced
modulo `N`, including when the source and destination ranges overlap. -/
theorem C7_copy_block_correct (m : Memory) (src dst k : Nat) (h : 0 < m.data.length) :
    ∀ i < k, (m.copy_block src dst k).read (dst + i) = m.read (src + i) := by
  induction k with
  | zero => intro i hi; omega
  | succ k ih =>
      intro i hi
      have hlen := m.copy_block_length src dst k
      rw [Memory.copy_block, Memory.read_write _ _ _ _ (hlen ▸ h), hlen]
      by_cases hc : (dst + i) % m.data.length = (dst + k) % m.data.length
      · rw [if_pos hc]
        have hik : i % m.data.length = k % m.data.length :=
          Nat.ModEq.add_left_cancel' dst hc
        exact m.read_congr_mod (src + k) (src + i) (Nat.ModEq.add_left src hik.symm)
      · rw [if_neg hc]
        have hik : i ≠ k := by
          intro hik
          exact hc (hik ▸ rfl)
        exact ih i (by omega)

theorem C7_copy_block_correct_witness :
    0 < (Memory.mk [.IncA, .IncB, .IncC, .Halt] []).data.length ∧
      ((Memory.mk [.IncA, .IncB, .IncC, .Halt] []).copy_block 0 2 2).read (2 + 1) =
        (Memory.mk [.IncA, .IncB, .IncC, .Halt] []).read (0 + 1) :=
  ⟨by decide, C7_copy_block_correct (Memory.mk [.IncA, .IncB, .IncC, .Halt] []) 0 2 2
    (by decide) 1 (by decide)⟩

/-! ## C8 -/

/-- C8: decoding the encoding of any of the 27 instruction tags returns
that same tag (`from_u8 (to_u8 x) = x` for every valid tag), and decoding
any integer outside `0..26` returns `Nop0`. -/
theorem C8_round_trip :
    (∀ x : Instruction, Instruction.from_u8 x.to_u8 = x) ∧
      (∀ n : Nat, 27 ≤ n → Instruction.from_u8 n = .Nop0) := by
  constructor
  · intro x
    cases x <;> rfl
  · intro n h
    obtain ⟨m, rfl⟩ : ∃ m, n = m + 27 := ⟨n - 27, by omega⟩
    rfl

theorem C8_round_trip_witness :
    Instruction.from_u8 (Instruction.to_u8 .Halt) = .Halt ∧
      Instruction.from_u8 100 = .Nop0 :=
  ⟨C8_round_trip.1 .Halt, C8_round_trip.2 100 (by decide)⟩

/-! ## C10 and C1: the `MovCD` write target -/

/-- C10: for every organism with `size > 0` and every value of `cx`, the
address `address + (cx mod size)` computed by `MovCD` and `MovDC` always
lies in the organism's home region `[address, address+size)`, so the
out-of-bounds error branch of `MovCD` is unreachable, `MovCD`'s `errors`
increment never occurs, and `MovCD` never modifies any cell outside the
executing organism's home region (the modified soup cell is the
reduction modulo `N` of an address inside the home region). -/
theorem C10_movcd_always_in_home (max_search : Nat) (org : Organism) (mem : Memory)
    (hsize : 0 < org.size) (halive : org.alive = true)
    (hinst : mem.read org.ip = .MovCD) (hN : 0 < mem.data.length) :
    org.is_address_valid (org.address + org.cx % org.size) = true ∧
      (execute_instruction max_search org mem).1.errors = org.errors ∧
      (execute_instruction max_search org mem).2.2 = .Continue ∧
      ∀ a : Nat,
        (∀ b : Nat, org.address ≤ b → b < org.address + org.size →
          b % mem.data.length ≠ a % mem.data.length) →
        (execute_instruction max_search org mem).2.1.read a = mem.read a := by
  have hmod := Nat.mod_lt org.cx hsize
  have hvalid : org.is_address_valid (org.address + org.cx % org.size) = true := by
    simp only [Organism.is_address_valid, decide_eq_true_eq]
    omega
  have hexec : execute_instruction max_search org mem =
      (org.increment_ip,
        mem.write (org.address + org.cx % org.size) (Instruction.from_u8 (org.dx % 27)),
        .Continue) := by
    unfold execute_instruction
    rw [halive, hinst]
    simp [hvalid]
  refine ⟨hvalid, ?_, ?_, ?_⟩
  · rw [hexec]
    rfl
  · rw [hexec]
  · intro a ha
    rw [hexec]
    show (mem.write (org.address + org.cx % org.size) _).read a = mem.read a
    rw [Memory.read_write _ _ _ _ hN,
      if_neg (Ne.symm (ha (org.address + org.cx % org.size) (by omega) (by omega)))]

theorem C10_movcd_always_in_home_witness :
    0 < org_movcd.size ∧ org_movcd.alive = true ∧
      mem_movcd.read org_movcd.ip = .MovCD ∧ 0 < mem_movcd.data.length ∧
      org_movcd.is_address_valid (org_movcd.address + org_movcd.cx % org_movcd.size) = true ∧
      (execute_instruction 200 org_movcd mem_movcd).1.errors = org_movcd.errors :=
  ⟨by decide, by decide, by decide, by decide,
    (C10_movcd_always_in_home 200 org_movcd mem_movcd (by decide) (by decide)
      (by decide) (by decide)).1,
    (C10_movcd_always_in_home 200 org_movcd mem_movcd (by decide) (by decide)
      (by decide) (by decide)).2.1⟩

/-- C1, counterexample: `org_movcd` has `cx = 10` pointing outside its
home region `[0,4)`, yet executing `MovCD` leaves `errors` at 0 (no
increment) and performs a write: cell 2 changes from `Nop0` to `Halt`.
The claim's conclusion (`errors` increments by exactly one, no write) is
false at this input. -/
theorem C1_counterexample :
    (org_movcd.address ≤ org_movcd.cx ∧ org_movcd.cx < org_movcd.address + org_movcd.size →
        False) ∧
      org_movcd.errors = 0 ∧
      (execute_instruction 200 org_movcd mem_movcd).1.errors = 0 ∧
      mem_movcd.read 2 = .Nop0 ∧
      (execute_instruction 200 org_movcd mem_movcd).2.1.read 2 = .Halt := by
  refine ⟨by decide, rfl, ?_, rfl, ?_⟩ <;> decide

/-- C1, amended: for every organism with `size > 0` whose `cx` register
points outside its home region, executing `MovCD` still leaves every
cell outside the organism's home region unchanged, but the `errors`
counter does not change and a write is performed: the target address is
reduced to `address + (cx mod size)` inside the home region and receives
the opcode decoded from `dx mod 27`. -/
theorem C1_movcd_out_of_range_cx (max_search : Nat) (org : Organism) (mem : Memory)
    (hsize : 0 < org.size) (halive : org.alive = true)
    (hinst : mem.read org.ip = .MovCD) (hN : 0 < mem.data.length)
    (_hcx : ¬ (org.address ≤ org.cx ∧ org.cx < org.address + org.size)) :
    (execute_instruction max_search org mem).1.errors = org.errors ∧
      (execute_instruction max_search org mem).2.1.read (org.address + org.cx % org.size) =
        Instruction.from_u8 (org.dx % 27) ∧
      ∀ a : Nat,
        (∀ b : Nat, org.address ≤ b → b < org.address + org.size →
          b % mem.data.length ≠ a % mem.data.length) →
        (execute_instruction max_search org mem).2.1.read a = mem.read a := by
  have hmod := Nat.mod_lt org.cx hsize
  have hvalid : org.is_address_valid (org.address + org.cx % org.size) = true := by
    simp only [Organism.is_address_valid, decide_eq_true_eq]
    omega
  have hexec : ∀ ms : Nat, execute_instruction ms org mem =
      (org.increment_ip,
        mem.write (org.address + org.cx % org.size) (Instruction.from_u8 (org.dx % 27)),
        .Continue) := by
    intro ms
    unfold execute_instruction
    rw [halive, hinst]
    simp [hvalid]
  refine ⟨?_, ?_, ?_⟩
  · rw [hexec]
    rfl
  · rw [hexec]
    show (mem.write (org.address + org.cx % org.size) _).read _ = _
    rw [Memory.read_write _ _ _ _ hN, if_pos rfl]
  · intro a ha
    rw [hexec]
    show (mem.write (org.address + org.cx % org.size) _).read a = mem.read a
    rw [Memory.read_write _ _ _ _ hN,
      if_neg (Ne.symm (ha (org.address + org.cx % org.size) (by omega) (by omega)))]

/-- C3, counterexample: executing the `JmpF` of `org_jmpf`/`mem_jmpf`
(whose two-opcode template has no complement match within
`max_search = 200`) increments `errors` by one but leaves the IP at cell
2 — the second template opcode — not at cell 3, the cell following the
last template opcode, so the IP does not end up just past the
template. -/
theorem C3_counterexample :
    mem_jmpf.read org_jmpf.ip = .JmpF ∧
      read_template org_jmpf.increment_ip mem_jmpf = [.Nop0, .Nop0] ∧
      mem_jmpf.find_template_forward (org_jmpf.increment_ip).ip
        (read_template org_jmpf.increment_ip mem_jmpf) 200 = none ∧
      (execute_instruction 200 org_jmpf mem_jmpf).1.errors = org_jmpf.errors + 1 ∧
      (execute_instruction 200 org_jmpf mem_jmpf).1.ip = 2 ∧
      (2 : Nat) ≠ 3 := by
  refine ⟨rfl, rfl, by decide, by decide, by decide, by decide⟩

/-- C3, amended: when the CPU executes `JmpB` or `JmpF` and the template
search finds no complement match within `max_search`, the organism's
`errors` counter is incremented by one and no jump is taken, but the
instruction pointer ends exactly two organism-local increments past the
jump opcode (one increment before the template is read, one after the
failure) — which is past the template only when the template is at most
one opcode long. -/
theorem C3_failed_jump (ms : Nat) (org : Organism) (mem : Memory)
    (halive : org.alive = true) :
    (mem.read org.ip = .JmpF →
      mem.find_template_forward (org.increment_ip).ip
          (read_template org.increment_ip mem) ms = none →
      (execute_instruction ms org mem).1.errors = org.errors + 1 ∧
        (execute_instruction ms org mem).1.ip = org.increment_ip.increment_ip.ip ∧
        (execute_instruction ms org mem).2.1 = mem ∧
        (execute_instruction ms org mem).2.2 = .Continue) ∧
    (mem.read org.ip = .JmpB →
      mem.find_template_backward (org.increment_ip).ip
          (read_template org.increment_ip mem) ms = none →
      (execute_instruction ms org mem).1.errors = org.errors + 1 ∧
        (execute_instruction ms org mem).1.ip = org.increment_ip.increment_ip.ip ∧
        (execute_instruction ms org mem).2.1 = mem ∧
        (execute_instruction ms org mem).2.2 = .Continue) := by
  constructor
  · intro hf hfail
    have hexec : execute_instruction ms org mem =
        ({ org.increment_ip with errors := (org.increment_ip).errors + 1 }.increment_ip,
          mem, .Continue) := by
      unfold execute_instruction
      rw [halive, hf]
      simp only [Bool.not_true, Bool.false_eq_true, if_false, hfail]
    rw [hexec]
    exact ⟨rfl, rfl, rfl, rfl⟩
  · intro hb hfail
    have hexec : execute_instruction ms org mem =
        ({ org.increment_ip with errors := (org.increment_ip).errors + 1 }.increment_ip,
          mem, .Continue) := by
      unfold execute_instruction
      rw [halive, hb]
      simp only [Bool.not_true, Bool.false_eq_true, if_false, hfail]
    rw [hexec]
    exact ⟨rfl, rfl, rfl, rfl⟩

set_option maxRecDepth 100000 in
theorem C3_failed_jump_witness :
    (mem_jmpf.read org_jmpf.ip = .JmpF ∧
      mem_jmpf.find_template_forward (org_jmpf.increment_ip).ip
        (read_template org_jmpf.increment_ip mem_jmpf) 200 = none ∧
      (execute_instruction 200 org_jmpf mem_jmpf).1.errors = org_jmpf.errors + 1 ∧
      (execute_instruction 200 org_jmpf mem_jmpf).1.ip =
        org_jmpf.increment_ip.increment_ip.ip) ∧
    (mem_jmpb.read org_jmpb.ip = .JmpB ∧
      mem_jmpb.find_template_backward (org_jmpb.increment_ip).ip
        (read_template org_jmpb.increment_ip mem_jmpb) 200 = none ∧
      (execute_instruction 200 org_jmpb mem_jmpb).1.errors = org_jmpb.errors + 1 ∧
      (execute_instruction 200 org_jmpb mem_jmpb).1.ip =
        org_jmpb.increment_ip.increment_ip.ip) :=
  ⟨⟨by decide, by decide,
      ((C3_failed_jump 200 org_jmpf mem_jmpf (by decide)).1 (by decide) (by decide)).1,
      ((C3_failed_jump 200 org_jmpf mem_jmpf (by decide)).1 (by decide) (by decide)).2.1⟩,
    ⟨by decide, by decide,
      ((C3_failed_jump 200 org_jmpb mem_jmpb (by decide)).2 (by decide) (by decide)).1,
      ((C3_failed_jump 200 org_jmpb mem_jmpb (by decide)).2 (by decide) (by decide)).2.1⟩⟩

theorem C1_movcd_out_of_range_cx_witness :
    (¬ (org_movcd.address ≤ org_movcd.cx ∧ org_movcd.cx < org_movcd.address + org_movcd.size)) ∧
      (execute_instruction 200 org_movcd mem_movcd).1.errors = org_movcd.errors ∧
      (execute_instruction 200 org_movcd mem_movcd).2.1.read
          (org_movcd.address + org_movcd.cx % org_movcd.size) =
        Instruction.from_u8 (org_movcd.dx % 27) :=
  ⟨by decide,
    (C1_movcd_out_of_range_cx 200 org_movcd mem_movcd (by decide) (by decide) (by decide)
      (by decide) (by decide)).1,
    (C1_movcd_out_of_range_cx 200 org_movcd mem_movcd (by decide) (by decide) (by decide)
      (by decide) (by decide)).2.1⟩

/-! ## C4: handle_divide -/

theorem Simulator.divideCopy_stats (pa oa : Nat) (rate : Rat) :
    ∀ (fuel i : Nat) (acc : Memory × Rng × Statistics),
      (Simulator.divideCopy pa oa rate i fuel acc).2.2.successful_replications =
          acc.2.2.successful_replications ∧
        (Simulator.divideCopy pa oa rate i fuel acc).2.2.failed_replications =
          acc.2.2.failed_replications := by
  intro fuel
  induction fuel with
  | zero =>
      intro i acc
      exact ⟨rfl, rfl⟩
  | succ fuel ih =>
      intro i acc
      obtain ⟨mem, r, st⟩ := acc
      rw [Simulator.divideCopy]
      by_cases hflag : (r.genFloat.1 : Rat) < rate
      · simp only [hflag, if_pos]
        exact ih (i + 1) _
      · simp only [hflag, if_neg, ite_false]
        exact ih (i + 1) _

/-- C4: `handle_divide` creates no organism and records a failed
replication if and only if the population length is at least
`max_population`, or the parent's `cx` is 0, or `cx` exceeds
`memory_size/10`; otherwise it appends exactly one new organism with a
fresh id, generation `parent.generation + 1`, `parent_id` set to the
parent's id, `alive = true`, `address = parent.bx`, `size = parent.cx`,
and records a successful replication. -/
theorem C4_handle_divide (sim : Simulator) (i : Nat) (parent : Organism)
    (hp : sim.organisms.get? i = some parent) :
    (sim.config.max_population ≤ sim.organisms.length ∨ parent.cx = 0 ∨
        sim.config.memory_size / 10 < parent.cx →
      (sim.handle_divide i).organisms = sim.organisms ∧
        (sim.handle_divide i).stats.failed_replications =
          sim.stats.failed_replications + 1 ∧
        (sim.handle_divide i).stats.successful_replications =
          sim.stats.successful_replications) ∧
    (sim.organisms.length < sim.config.max_population → parent.cx ≠ 0 →
        parent.cx ≤ sim.config.memory_size / 10 →
      (sim.handle_divide i).organisms =
          sim.organisms ++ [Organism.new sim.next_organism_id parent.bx parent.cx
            (parent.generation + 1) (some parent.id)] ∧
        (sim.handle_divide i).next_organism_id = sim.next_organism_id + 1 ∧
        (sim.handle_divide i).stats.successful_replications =
          sim.stats.successful_replications + 1 ∧
        (sim.handle_divide i).stats.failed_replications = sim.stats.failed_replications ∧
        (Organism.new sim.next_organism_id parent.bx parent.cx
            (parent.generation + 1) (some parent.id)).alive = true ∧
        (Organism.new sim.next_organism_id parent.bx parent.cx
            (parent.generation + 1) (some parent.id)).address = parent.bx ∧
        (Organism.new sim.next_organism_id parent.bx parent.cx
            (parent.generation + 1) (some parent.id)).size = parent.cx ∧
        (Organism.new sim.next_organism_id parent.bx parent.cx
            (parent.generation + 1) (some parent.id)).generation = parent.generation + 1 ∧
        (Organism.new sim.next_organism_id parent.bx parent.cx
            (parent.generation + 1) (some parent.id)).parent_id = some parent.id ∧
        (Organism.new sim.next_organism_id parent.bx parent.cx
            (parent.generation + 1) (some parent.id)).id = sim.next_organism_id) := by
  constructor
  · intro hcond
    by_cases hpop : sim.organisms.length ≥ sim.config.max_population
    · have hdiv : sim.handle_divide i =
          { sim with stats := sim.stats.record_replication false } := by
        unfold Simulator.handle_divide
        rw [hp]
        dsimp only
        rw [if_pos hpop]
      rw [hdiv]
      exact ⟨rfl, rfl, rfl⟩
    · have hcx : parent.cx = 0 ∨ sim.config.memory_size / 10 < parent.cx := by
        rcases hcond with h | h | h
        · omega
        · exact Or.inl h
        · exact Or.inr h
      have hdiv : sim.handle_divide i =
          { sim with stats := sim.stats.record_replication false } := by
        unfold Simulator.handle_divide
        rw [hp]
        dsimp only
        rw [if_neg hpop, if_pos hcx]
      rw [hdiv]
      exact ⟨rfl, rfl, rfl⟩
  · intro hpop hcx0 hcx10
    have hstats := Simulator.divideCopy_stats parent.address parent.bx
      sim.config.mutation_rate (min parent.size parent.cx) 0
      (sim.memory, sim.rng, sim.stats)
    have hdiv : sim.handle_divide i = { sim with
        memory := (Simulator.divideCopy parent.address parent.bx sim.config.mutation_rate 0
          (min parent.size parent.cx) (sim.memory, sim.rng, sim.stats)).1
        rng := (Simulator.divideCopy parent.address parent.bx sim.config.mutation_rate 0
          (min parent.size parent.cx) (sim.memory, sim.rng, sim.stats)).2.1
        stats := (((Simulator.divideCopy parent.address parent.bx sim.config.mutation_rate 0
          (min parent.size parent.cx) (sim.memory, sim.rng, sim.stats)).2.2.record_birth
            parent.cx (parent.generation + 1)).record_replication true)
        organisms := sim.organisms ++ [Organism.new sim.next_organism_id parent.bx parent.cx
          (parent.generation + 1) (some parent.id)]
        next_organism_id := sim.next_organism_id + 1 } := by
      unfold Simulator.handle_divide
      rw [hp]
      dsimp only
      rw [if_neg (by omega), if_neg (by push_neg; omega)]
    rw [hdiv]
    refine ⟨rfl, rfl, ?_, ?_, rfl, rfl, rfl, rfl, rfl, rfl⟩
    · show ((Simulator.divideCopy parent.address parent.bx sim.config.mutation_rate 0
        (min parent.size parent.cx)
        (sim.memory, sim.rng, sim.stats)).2.2).successful_replications + 1 =
        sim.stats.successful_replications + 1
      rw [hstats.1]
    · show ((Simulator.divideCopy parent.address parent.bx sim.config.mutation_rate 0
        (min parent.size parent.cx)
        (sim.memory, sim.rng, sim.stats)).2.2).failed_replications =
        sim.stats.failed_replications
      rw [hstats.2]

theorem C4_handle_divide_witness :
    sim_div.organisms.get? 0 = some org_divA ∧
      sim_div.organisms.length < sim_div.config.max_population ∧
      org_divA.cx ≠ 0 ∧ org_divA.cx ≤ sim_div.config.memory_size / 10 ∧
      (sim_div.handle_divide 0).organisms =
        sim_div.organisms ++ [Organism.new sim_div.next_organism_id org_divA.bx org_divA.cx
          (org_divA.generation + 1) (some org_divA.id)] ∧
      (sim_div.handle_divide 0).stats.successful_replications =
        sim_div.stats.successful_replications + 1 :=
  ⟨rfl, by decide, by decide, by decide,
    ((C4_handle_divide sim_div 0 org_divA rfl).2 (by decide) (by decide) (by decide)).1,
    ((C4_handle_divide sim_div 0 org_divA rfl).2 (by decide) (by decide) (by decide)).2.2.1⟩

/-! ## C2: overlap after a step -/

/-- C2, refutation by evaluation: from the state `sim_div` — two live,
disjoint organisms where the scheduled parent's `bx` points into the
bystander's home region — one `step()` appends a child at `[20,23)`,
exactly the live bystander's region: after the step the organisms at
positions 1 (id 1) and 2 (id 2) are distinct, both alive, and their
regions `[20,23)` and `[20,23)` are not disjoint.  `handle_divide`
checks neither the allocation bitmap nor the other organisms, so the
no-overlap invariant does not survive `step()`. -/
theorem C2_overlap_after_step :
    ((sim_div.step).organisms.get? 1).map (fun o => (o.id, o.alive, o.address, o.size)) =
        some (1, true, 20, 3) ∧
      ((sim_div.step).organisms.get? 2).map (fun o => (o.id, o.alive, o.address, o.size)) =
        some (2, true, 20, 3) ∧
      ¬ (20 + 3 ≤ 20 ∨ 20 + 3 ≤ 20) := by
  refine ⟨by decide, by decide, by decide⟩

/-- C6, counterexample: from the state `sim_div_oob` — one live organism
whose `bx = 28`, `cx = 3` in a 30-cell soup — one `step()` appends a
live child with `address + size = 31 > 30 = N`, so the claimed bound
`address + size ≤ N` does not hold after every step. -/
theorem C6_counterexample :
    ((sim_div_oob.step).organisms.get? 1).map (fun o => (o.alive, o.address, o.size)) =
        some (true, 28, 3) ∧
      (sim_div_oob.step).config.memory_size = 30 ∧
      (sim_div_oob.step).memory.size = 30 ∧
      ¬ (28 + 3 ≤ 30) := by
  refine ⟨by decide, by decide, by decide, by decide⟩

/-! ## C5: effect resolution and IP advancement -/

theorem Simulator.modifyOrganism_get?_self (sim : Simulator) (idx : Nat)
    (f : Organism → Organism) (o : Organism) (h : sim.organisms.get? idx = some o) :
    (sim.modifyOrganism idx f).organisms.get? idx = some (f o) := by
  obtain ⟨hlt, -⟩ := List.get?_eq_some.mp h
  unfold Simulator.modifyOrganism
  rw [h]
  exact List.get?_set_eq_of_lt _ (by simpa using hlt)

theorem Simulator.handle_divide_get? (sim : Simulator) (pidx idx : Nat)
    (hlt : idx < sim.organisms.length) :
    (sim.handle_divide pidx).organisms.get? idx = sim.organisms.get? idx := by
  unfold Simulator.handle_divide
  cases hq : sim.organisms.get? pidx with
  | none => rfl
  | some parent =>
      dsimp only
      split
      · rfl
      · split
        · rfl
        · show (sim.organisms ++ [_]).get? idx = sim.organisms.get? idx
          exact List.get?_append hlt

/-- C5: executing a `MallocA` or `Divide` opcode in the CPU returns the
corresponding effect with the organism's IP still on that opcode (the
organism and the soup are returned unchanged), and the Simulator's
effect resolution then advances the IP exactly once: `resolveMalloc`
stores the allocated base in `bx` on success or bumps `errors` on
failure (leaving `bx` unchanged), then applies `increment_ip` once;
`resolveDivide` leaves the parent unchanged apart from one
`increment_ip`. -/
theorem C5_effects_advance_ip_once (ms : Nat) (org : Organism) (mem : Memory)
    (sim : Simulator) (idx sz : Nat) (o : Organism)
    (halive : org.alive = true) (ho : sim.organisms.get? idx = some o) :
    (mem.read org.ip = .MallocA →
      execute_instruction ms org mem = (org, mem, .Malloc org.ax)) ∧
      (mem.read org.ip = .Divide →
        execute_instruction ms org mem = (org, mem, .Divide)) ∧
      (∀ a : Nat, (sim.memory.allocate sz sim.rng).1 = some a →
        (sim.resolveMalloc idx sz).organisms.get? idx =
          some (Organism.increment_ip { o with bx := a })) ∧
      ((sim.memory.allocate sz sim.rng).1 = none →
        (sim.resolveMalloc idx sz).organisms.get? idx =
          some (Organism.increment_ip { o with errors := o.errors + 1 })) ∧
      (sim.resolveDivide idx).organisms.get? idx = some o.increment_ip := by
  obtain ⟨hlt, -⟩ := List.get?_eq_some.mp ho
  refine ⟨?_, ?_, ?_, ?_, ?_⟩
  · intro hm
    unfold execute_instruction
    rw [halive, hm]
    rfl
  · intro hd
    unfold execute_instruction
    rw [halive, hd]
    rfl
  · intro a ha
    unfold Simulator.resolveMalloc
    rcases halloc : sim.memory.allocate sz sim.rng with ⟨res, mem2, r2⟩
    rw [halloc] at ha
    simp only at ha
    subst ha
    dsimp only
    have h1 : (({ sim with memory := mem2, rng := r2 } : Simulator).modifyOrganism idx
        (fun o => { o with bx := a })).organisms.get? idx = some { o with bx := a } :=
      Simulator.modifyOrganism_get?_self _ idx _ o ho
    exact Simulator.modifyOrganism_get?_self _ idx Organism.increment_ip _ h1
  · intro ha
    unfold Simulator.resolveMalloc
    rcases halloc : sim.memory.allocate sz sim.rng with ⟨res, mem2, r2⟩
    rw [halloc] at ha
    simp only at ha
    subst ha
    dsimp only
    have h1 : (({ sim with memory := mem2, rng := r2 } : Simulator).modifyOrganism idx
        (fun o => { o with errors := o.errors + 1 })).organisms.get? idx =
          some { o with errors := o.errors + 1 } :=
      Simulator.modifyOrganism_get?_self _ idx _ o ho
    exact Simulator.modifyOrganism_get?_self _ idx Organism.increment_ip _ h1
  · unfold Simulator.resolveDivide
    have h1 : (sim.handle_divide idx).organisms.get? idx = some o :=
      (sim.handle_divide_get? idx idx hlt).trans ho
    exact Simulator.modifyOrganism_get?_self _ idx Organism.increment_ip _ h1

theorem C5_effects_advance_ip_once_witness :
    (mem_malloc.read org_divA.ip = .MallocA ∧
      execute_instruction 200 org_divA mem_malloc = (org_divA, mem_malloc, .Malloc org_divA.ax)) ∧
      (mem_div.read org_divA.ip = .Divide ∧
        execute_instruction 200 org_divA mem_div = (org_divA, mem_div, .Divide)) ∧
      ((sim_div.memory.allocate 2 sim_div.rng).1 = some 0 ∧
        (sim_div.resolveMalloc 0 2).organisms.get? 0 =
          some (Organism.increment_ip { org_divA with bx := 0 })) ∧
      ((sim_div.memory.allocate 0 sim_div.rng).1 = none ∧
        (sim_div.resolveMalloc 0 0).organisms.get? 0 =
          some (Organism.increment_ip { org_divA with errors := org_divA.errors + 1 })) ∧
      (sim_div.resolveDivide 0).organisms.get? 0 = some org_divA.increment_ip :=
  ⟨⟨by decide,
      (C5_effects_advance_ip_once 200 org_divA mem_malloc sim_div 0 2 org_divA (by decide)
        rfl).1 (by decide)⟩,
    ⟨by decide,
      (C5_effects_advance_ip_once 200 org_divA mem_div sim_div 0 2 org_divA (by decide)
        rfl).2.1 (by decide)⟩,
    ⟨by decide,
      (C5_effects_advance_ip_once 200 org_divA mem_div sim_div 0 2 org_divA (by decide)
        rfl).2.2.1 0 (by decide)⟩,
    ⟨by decide,
      (C5_effects_advance_ip_once 200 org_divA mem_div sim_div 0 0 org_divA (by decide)
        rfl).2.2.2.1 (by decide)⟩,
    (C5_effects_advance_ip_once 200 org_divA mem_div sim_div 0 2 org_divA (by decide)
      rfl).2.2.2.2⟩

/-! ## C9: select_next -/

theorem selectLoop_ne_none (organisms : List Organism) :
    ∀ (fuel cur : Nat), cur < organisms.length → selectLoop organisms cur fuel ≠ none := by
  intro fuel
  induction fuel with
  | zero =>
      intro cur hc
      simp [selectLoop]
  | succ fuel ih =>
      intro cur hc
      unfold selectLoop
      cases hg : organisms.get? cur with
      | none =>
          have := List.get?_eq_none.mp hg
          omega
      | some o =>
          dsimp only
          split
          · simp
          · exact ih ((cur + 1) % organisms.length) (Nat.mod_lt _ (by omega))

theorem selectLoop_some_alive (organisms : List Organism) :
    ∀ (fuel cur i : Nat), selectLoop organisms cur fuel = some (some i) →
      ∃ o, organisms.get? i = some o ∧ o.alive = true := by
  intro fuel
  induction fuel with
  | zero =>
      intro cur i h
      simp [selectLoop] at h
  | succ fuel ih =>
      intro cur i h
      unfold selectLoop at h
      cases hg : organisms.get? cur with
      | none =>
          rw [hg] at h
          exact absurd h (by simp)
      | some o =>
          rw [hg] at h
          dsimp only at h
          by_cases halive : o.alive = true
          · rw [if_pos halive] at h
            obtain rfl : cur = i := by simpa using h
            exact ⟨o, hg, halive⟩
          · rw [if_neg halive] at h
            exact ih _ i h

theorem selectLoop_none_dead (organisms : List Organism) :
    ∀ (fuel cur : Nat), cur < organisms.length → selectLoop organisms cur fuel = some none →
      ∀ j, j < fuel → ∀ o, organisms.get? ((cur + j) % organisms.length) = some o →
        o.alive = false := by
  intro fuel
  induction fuel with
  | zero =>
      intro cur hc h j hj
      omega
  | succ fuel ih =>
      intro cur hc h j hj o hg
      unfold selectLoop at h
      cases hgc : organisms.get? cur with
      | none =>
          rw [hgc] at h
          exact absurd h (by simp)
      | some oc =>
          rw [hgc] at h
          dsimp only at h
          by_cases halive : oc.alive = true
          · rw [if_pos halive] at h
            exact absurd h (by simp)
          · rw [if_neg halive] at h
            cases j with
            | zero =>
                rw [Nat.add_zero, Nat.mod_eq_of_lt hc, hgc] at hg
                obtain rfl : oc = o := Option.some.inj hg
                exact Bool.not_eq_true _ ▸ Bool.of_not_eq_true halive
            | succ j' =>
                have harith : ((cur + 1) % organisms.length + j') % organisms.length =
                    (cur + (j' + 1)) % organisms.length := by
                  rw [Nat.mod_add_mod]
                  congr 1
                  omega
                exact ih ((cur + 1) % organisms.length) (Nat.mod_lt _ (by omega)) h j'
                  (by omega) o (by rw [harith]; exact hg)

theorem cursor_coverage (len cur j : Nat) (hcur : cur < len) (hj : j < len) :
    ∃ k, k < len ∧ (cur + k) % len = j := by
  refine ⟨(j + len - cur) % len, Nat.mod_lt _ (by omega), ?_⟩
  have h1 : (cur + (j + len - cur) % len) % len = (cur + (j + len - cur)) % len :=
    (Nat.ModEq.add_left cur (Nat.mod_modEq (j + len - cur) len))
  rw [h1]
  have h2 : cur + (j + len - cur) = j + len := by omega
  rw [h2, Nat.add_mod_right]
  exact Nat.mod_eq_of_lt hj

/-- C9, counterexample: with a single live organism in the population
but the scheduler cursor at 5 — out of bounds, as happens when
`reap_dead` shrinks the population while the cursor stays — and the 10%
random reseed not firing, the Rust `organisms[self.current_index]`
indexing panics (modelled by `select_next` returning `none`): it neither
returns a live organism nor `None`, so `select_next` does not terminate
without panicking for every cursor value. -/
theorem C9_counterexample :
    org_divA.alive = true ∧ select_next [org_divA] 5 25 false 0 = none := by
  refine ⟨rfl, by decide⟩

/-- C9, amended: whenever the population is empty or the cursor is in
bounds (`cursor < length`), `select_next` terminates without panicking
and returns `None` if and only if no organism in the population is
alive; otherwise it returns the index of a live organism, resets that
organism's energy to `time_slice`, and advances the cursor past it.  For
an out-of-bounds cursor on a non-empty population the Rust code panics
whenever the 10% random-reseed coin does not fire. -/
theorem C9_select_next_in_bounds (organisms : List Organism)
    (cursor time_slice : Nat) (randomize : Bool) (randIdx : Nat)
    (h : organisms.length = 0 ∨ cursor < organisms.length) :
    ∃ r, select_next organisms cursor time_slice randomize randIdx = some r ∧
      (r.1 = none ↔ ∀ o ∈ organisms, o.alive = false) ∧
      ∀ i, r.1 = some i → ∃ o, organisms.get? i = some o ∧ o.alive = true ∧
        r.2.1 = organisms.set i (o.reset_energy time_slice) ∧
        r.2.2 = (i + 1) % organisms.length := by
  by_cases hempty : organisms.isEmpty
  · refine ⟨(none, organisms, cursor), ?_, ?_, ?_⟩
    · unfold select_next
      rw [if_pos hempty]
    · simp only [true_iff]
      intro o ho
      rw [List.isEmpty_iff.mp hempty] at ho
      exact absurd ho (List.not_mem_nil o)
    · intro i hi
      exact absurd hi (by simp)
  · have hlen : 0 < organisms.length := by
      cases horg : organisms with
      | nil => exact absurd (horg ▸ rfl) hempty
      | cons a l => simp [horg]
    set cur0 := if randomize then randIdx % organisms.length else cursor with hcur0
    have hc0 : cur0 < organisms.length := by
      rw [hcur0]
      split
      · exact Nat.mod_lt _ hlen
      · omega
    have hsel : select_next organisms cursor time_slice randomize randIdx =
        match selectLoop organisms cur0 organisms.length with
        | none => none
        | some none => some (none, organisms, cur0)
        | some (some idx) =>
            match organisms.get? idx with
            | none => none
            | some o =>
                some (some idx, organisms.set idx (o.reset_energy time_slice),
                  (idx + 1) % organisms.length) := by
      unfold select_next
      rw [if_neg hempty]
    cases hl : selectLoop organisms cur0 organisms.length with
    | none => exact absurd hl (selectLoop_ne_none organisms organisms.length cur0 hc0)
    | some ores =>
        cases ores with
        | none =>
            refine ⟨(none, organisms, cur0), by rw [hsel, hl], ?_, ?_⟩
            · simp only [true_iff]
              intro o ho
              obtain ⟨j, hj⟩ := List.mem_iff_get?.mp ho
              have hjlt : j < organisms.length := by
                by_contra hge
                rw [List.get?_eq_none.mpr (by omega)] at hj
                exact absurd hj (by simp)
              obtain ⟨k, hk, hck⟩ :=
                cursor_coverage organisms.length cur0 j hc0 hjlt
              exact selectLoop_none_dead organisms organisms.length cur0 hc0 hl k hk o
                (by rw [hck]; exact hj)
            · intro i hi
              exact absurd hi (by simp)
        | some idx =>
            obtain ⟨o, hgo, halive⟩ :=
              selectLoop_some_alive organisms organisms.length cur0 idx hl
            refine ⟨(some idx, organisms.set idx (o.reset_energy time_slice),
              (idx + 1) % organisms.length), by rw [hsel, hl]; dsimp only; rw [hgo], ?_, ?_⟩
            · constructor
              · intro hnone
                exact absurd hnone (by simp)
              · intro hdead
                exact absurd halive (by rw [hdead o (List.get?_mem hgo)]; simp)
            · intro i hi
              obtain rfl : idx = i := by simpa using hi
              exact ⟨o, hgo, halive, rfl, rfl⟩

theorem C9_select_next_in_bounds_witness :
    (([{ org_divA with alive := false }, org_divB] : List Organism).length = 0 ∨
        0 < ([{ org_divA with alive := false }, org_divB] : List Organism).length) ∧
      (∃ r, select_next [{ org_divA with alive := false }, org_divB] 0 25 false 0 = some r ∧
        (r.1 = none ↔ ∀ o ∈ [{ org_divA with alive := false }, org_divB], o.alive = false) ∧
        ∀ i, r.1 = some i → ∃ o,
          ([{ org_divA with alive := false }, org_divB] : List Organism).get? i = some o ∧
            o.alive = true ∧
            r.2.1 = ([{ org_divA with alive := false }, org_divB] : List Organism).set i
              (o.reset_energy 25) ∧
            r.2.2 = (i + 1) % ([{ org_divA with alive := false }, org_divB] : List Organism).length) :=
  ⟨Or.inr (by decide),
    C9_select_next_in_bounds [{ org_divA with alive := false }, org_divB] 0 25 false 0
      (Or.inr (by decide))⟩

/-! ## C6: the IP-containment invariant -/

theorem Organism.push_fst_address (o : Organism) (v : Nat) : (o.push v).1.address = o.address := by
  unfold Organism.push
  split <;> rfl

theorem Organism.push_fst_size (o : Organism) (v : Nat) : (o.push v).1.size = o.size := by
  unfold Organism.push
  split <;> rfl

theorem Organism.pop_fst_address (o : Organism) : o.pop.1.address = o.address := by
  unfold Organism.pop
  cases o.stack <;> rfl

theorem Organism.pop_fst_size (o : Organism) : o.pop.1.size = o.size := by
  unfold Organism.pop
  cases o.stack <;> rfl

theorem Organism.increment_ip_ipInv (o : Organism) (h : 0 < o.size) : ipInv o.increment_ip := by
  have hm := Nat.mod_lt (o.ip - o.address + 1) h
  unfold ipInv Organism.increment_ip
  dsimp only
  omega

theorem Organism.set_ip_ipInv (o : Organism) (addr : Nat) (h : 0 < o.size) :
    ipInv (o.set_ip addr) := by
  have hm := Nat.mod_lt addr h
  unfold ipInv Organism.set_ip
  split
  · rename_i hcond
    dsimp only
    exact ⟨h, hcond.1, hcond.2⟩
  · dsimp only
    exact ⟨h, by omega, by omega⟩

/-- Shape of the conclusion of the CPU-preservation lemma for an arm
that ends in the auto-advance `increment_ip`. -/
theorem ipInv_after_increment (o o' : Organism) (ha : o'.address = o.address)
    (hsz : o'.size = o.size) (hs : 0 < o.size) :
    o'.increment_ip.address = o.address ∧ o'.increment_ip.size = o.size ∧
      (o'.increment_ip.alive = true → ipInv o'.increment_ip) :=
  ⟨ha, hsz, fun _ => o'.increment_ip_ipInv (hsz ▸ hs)⟩

/-- Shape of the conclusion of the CPU-preservation lemma for an arm
that ends in an explicit `set_ip`. -/
theorem ipInv_after_set_ip (o o' : Organism) (addr : Nat) (ha : o'.address = o.address)
    (hsz : o'.size = o.size) (hs : 0 < o.size) :
    (o'.set_ip addr).address = o.address ∧ (o'.set_ip addr).size = o.size ∧
      ((o'.set_ip addr).alive = true → ipInv (o'.set_ip addr)) := by
  have h1 : (o'.set_ip addr).address = o'.address := by
    unfold Organism.set_ip
    split <;> rfl
  have h2 : (o'.set_ip addr).size = o'.size := by
    unfold Organism.set_ip
    split <;> rfl
  exact ⟨h1.trans ha, h2.trans hsz, fun _ => o'.set_ip_ipInv addr (hsz ▸ hs)⟩

/-- One CPU dispatch never moves an organism's home region, and leaves
the IP inside the home region whenever the organism comes out alive. -/
theorem execute_instruction_preserves (ms : Nat) (org : Organism) (mem : Memory)
    (hinv : ipInv org) :
    (execute_instruction ms org mem).1.address = org.address ∧
      (execute_instruction ms org mem).1.size = org.size ∧
      ((execute_instruction ms org mem).1.alive = true →
        ipInv (execute_instruction ms org mem).1) := by
  have hs : 0 < org.size := hinv.1
  unfold execute_instruction
  by_cases halive : org.alive = true
  · simp only [halive, Bool.not_true, Bool.false_eq_true, if_false]
    cases hread : mem.read org.ip with
    | Nop0 => exact ipInv_after_increment org org rfl rfl hs
    | Nop1 => exact ipInv_after_increment org org rfl rfl hs
    | IfCZ =>
        dsimp only
        split
        · exact ipInv_after_increment org org.increment_ip rfl rfl hs
        · exact ipInv_after_increment org org rfl rfl hs
    | JmpB =>
        dsimp only
        split
        · exact ipInv_after_set_ip org org.increment_ip _ rfl rfl hs
        · exact ipInv_after_increment org _ rfl rfl hs
    | JmpF =>
        dsimp only
        split
        · exact ipInv_after_set_ip org org.increment_ip _ rfl rfl hs
        · exact ipInv_after_increment org _ rfl rfl hs
    | Call =>
        dsimp only
        split
        · rename_i addr hfind
          split
          · exact ipInv_after_set_ip org _ addr
              (Organism.push_fst_address _ _) (Organism.push_fst_size _ _) hs
          · exact ipInv_after_increment org _
              (Organism.push_fst_address _ _) (Organism.push_fst_size _ _) hs
        · exact ipInv_after_increment org _ rfl rfl hs
    | Ret =>
        dsimp only
        split
        · rename_i org1 addr heq
          have h1 : org.pop.1 = org1 := by
            rw [heq]
          exact ipInv_after_set_ip org org1 addr (h1 ▸ Organism.pop_fst_address org)
            (h1 ▸ Organism.pop_fst_size org) hs
        · rename_i org1 heq
          have h1 : org.pop.1 = org1 := by
            rw [heq]
          exact ipInv_after_increment org org1 (h1 ▸ Organism.pop_fst_address org)
            (h1 ▸ Organism.pop_fst_size org) hs
    | MovDC => exact ipInv_after_increment org _ rfl rfl hs
    | MovCD =>
        dsimp only
        split
        · exact ipInv_after_increment org org rfl rfl hs
        · exact ipInv_after_increment org _ rfl rfl hs
    | Adr => exact ipInv_after_increment org _ rfl rfl hs
    | AdrB =>
        dsimp only
        split
        · exact ⟨rfl, rfl, fun _ => org.increment_ip_ipInv hs⟩
        · exact ⟨rfl, rfl, fun _ => org.increment_ip_ipInv hs⟩
    | AdrF =>
        dsimp only
        split
        · exact ⟨rfl, rfl, fun _ => org.increment_ip_ipInv hs⟩
        · exact ⟨rfl, rfl, fun _ => org.increment_ip_ipInv hs⟩
    | IncA => exact ipInv_after_increment org _ rfl rfl hs
    | IncB => exact ipInv_after_increment org _ rfl rfl hs
    | IncC => exact ipInv_after_increment org _ rfl rfl hs
    | DecC => exact ipInv_after_increment org _ rfl rfl hs
    | MallocA => exact ⟨rfl, rfl, fun _ => hinv⟩
    | Divide => exact ⟨rfl, rfl, fun _ => hinv⟩
    | PushA =>
        exact ipInv_after_increment org _ (Organism.push_fst_address org org.ax)
          (Organism.push_fst_size org org.ax) hs
    | PushB =>
        exact ipInv_after_increment org _ (Organism.push_fst_address org org.bx)
          (Organism.push_fst_size org org.bx) hs
    | PushC =>
        exact ipInv_after_increment org _ (Organism.push_fst_address org org.cx)
          (Organism.push_fst_size org org.cx) hs
    | PushD =>
        exact ipInv_after_increment org _ (Organism.push_fst_address org org.dx)
          (Organism.push_fst_size org org.dx) hs
    | PopA =>
        exact ipInv_after_increment org _ (Organism.pop_fst_address org)
          (Organism.pop_fst_size org) hs
    | PopB =>
        exact ipInv_after_increment org _ (Organism.pop_fst_address org)
          (Organism.pop_fst_size org) hs
    | PopC =>
        exact ipInv_after_increment org _ (Organism.pop_fst_address org)
          (Organism.pop_fst_size org) hs
    | PopD =>
        exact ipInv_after_increment org _ (Organism.pop_fst_address org)
          (Organism.pop_fst_size org) hs
    | Halt => exact ⟨rfl, rfl, fun hx => Bool.noConfusion hx⟩
  · rw [if_pos (by simp [Bool.not_eq_true'] at halive ⊢; exact halive)]
    exact ⟨rfl, rfl, fun _ => hinv⟩

theorem popInv_set (l : List Organism) (i : Nat) (x : Organism)
    (h : popInv l) (hx : x.alive = true → ipInv x) : popInv (l.set i x) := by
  intro o ho
  rcases List.mem_or_eq_of_mem_set ho with h1 | h1
  · exact h o h1
  · subst h1
    exact hx

theorem popInv_reap (l : List Organism) (h : popInv l) : popInv (reap_dead l) :=
  fun o ho => h o (List.mem_filter.mp ho).1

theorem Simulator.modifyOrganism_popInv (sim : Simulator) (idx : Nat) (f : Organism → Organism)
    (hf : ∀ o : Organism, (o.alive = true → ipInv o) → (f o).alive = true → ipInv (f o))
    (h : popInv sim.organisms) : popInv (sim.modifyOrganism idx f).organisms := by
  unfold Simulator.modifyOrganism
  cases hg : sim.organisms.get? idx with
  | none => exact h
  | some o => exact popInv_set _ idx _ h (hf o (h o (List.get?_mem hg)))

theorem Simulator.handle_divide_popInv (sim : Simulator) (pidx : Nat)
    (h : popInv sim.organisms) : popInv (sim.handle_divide pidx).organisms := by
  unfold Simulator.handle_divide
  cases hq : sim.organisms.get? pidx with
  | none => exact h
  | some parent =>
      dsimp only
      split
      · exact h
      · split
        · exact h
        · rename_i hcond
          show popInv (sim.organisms ++ [Organism.new sim.next_organism_id parent.bx parent.cx
            (parent.generation + 1) (some parent.id)])
          intro o ho
          rcases List.mem_append.mp ho with h1 | h1
          · exact h o h1
          · rw [List.mem_singleton.mp h1]
            intro _
            have hcx : parent.cx ≠ 0 := fun hz => hcond (Or.inl hz)
            show ipInv (Organism.new sim.next_organism_id parent.bx parent.cx
              (parent.generation + 1) (some parent.id))
            unfold ipInv Organism.new
            dsimp only
            omega

theorem Simulator.resolveMalloc_popInv (sim : Simulator) (idx sz : Nat)
    (h : popInv sim.organisms) : popInv (sim.resolveMalloc idx sz).organisms := by
  unfold Simulator.resolveMalloc
  rcases halloc : sim.memory.allocate sz sim.rng with ⟨res, mem2, r2⟩
  dsimp only
  cases res with
  | some a =>
      exact Simulator.modifyOrganism_popInv _ idx Organism.increment_ip
        (fun o hP ha => o.increment_ip_ipInv (hP ha).1)
        (Simulator.modifyOrganism_popInv _ idx _ (fun o hP => hP) h)
  | none =>
      exact Simulator.modifyOrganism_popInv _ idx Organism.increment_ip
        (fun o hP ha => o.increment_ip_ipInv (hP ha).1)
        (Simulator.modifyOrganism_popInv _ idx _ (fun o hP => hP) h)

theorem Simulator.resolveDivide_popInv (sim : Simulator) (idx : Nat)
    (h : popInv sim.organisms) : popInv (sim.resolveDivide idx).organisms :=
  Simulator.modifyOrganism_popInv _ idx Organism.increment_ip
    (fun o hP ha => o.increment_ip_ipInv (hP ha).1)
    (sim.handle_divide_popInv idx h)

theorem Simulator.stepSlice_popInv (idx : Nat) :
    ∀ (fuel : Nat) (sim : Simulator), popInv sim.organisms →
      popInv (Simulator.stepSlice idx fuel sim).organisms := by
  intro fuel
  induction fuel with
  | zero =>
      intro sim h
      exact h
  | succ fuel ih =>
      intro sim h
      unfold Simulator.stepSlice
      cases hg : sim.organisms.get? idx with
      | none => exact h
      | some org =>
          dsimp only
          split
          · exact h
          · split
            · exact h
            · rename_i hnotdead henergy
              have halive : org.alive = true := by
                by_contra hx
                exact hnotdead (by simp [Bool.not_eq_true] at hx ⊢; exact hx)
              have hinvO : ipInv { org with energy := org.energy - 1 } :=
                h org (List.get?_mem hg) halive
              have hE := execute_instruction_preserves sim.max_search
                { org with energy := org.energy - 1 } sim.memory hinvO
              have hset : popInv (sim.organisms.set idx
                  (execute_instruction sim.max_search { org with energy := org.energy - 1 }
                    sim.memory).1) :=
                popInv_set _ idx _ h hE.2.2
              split
              · exact ih _ hset
              · exact hset
              · exact ih _ (Simulator.resolveMalloc_popInv _ idx _ hset)
              · exact Simulator.resolveDivide_popInv _ idx hset

theorem Simulator.find_next_organism_popInv (sim : Simulator) (idx : Nat) (sim' : Simulator)
    (hf : sim.find_next_organism = some (idx, sim')) (h : popInv sim.organisms) :
    popInv sim'.organisms := by
  unfold Simulator.find_next_organism at hf
  by_cases hlen : sim.organisms.length = 0
  · rw [if_pos hlen] at hf
    exact absurd hf (by simp)
  · rw [if_neg hlen] at hf
    dsimp only at hf
    cases hfind : (List.range sim.organisms.length).find? (fun off =>
        ((sim.organisms.get? ((sim.schedCursor % sim.organisms.length + off) %
          sim.organisms.length)).map (fun o => o.alive)).getD false) with
    | none =>
        rw [hfind] at hf
        exact absurd hf (by simp)
    | some off =>
        rw [hfind] at hf
        dsimp only at hf
        injection hf with hf1
        have h2 : _ = sim' := congrArg Prod.snd hf1
        rw [← h2]
        exact Simulator.modifyOrganism_popInv _ _ _ (fun o hP => hP) h

/-- `step()` preserves the live-organism IP-containment invariant. -/
theorem Simulator.step_popInv (sim : Simulator) (h : popInv sim.organisms) :
    popInv sim.step.organisms := by
  unfold Simulator.step
  cases hf : sim.find_next_organism with
  | none =>
      dsimp only
      split
      · split
        · exact popInv_reap _ h
        · exact popInv_reap _ h
      · split
        · exact h
        · exact h
  | some p =>
      obtain ⟨idx, sim'⟩ := p
      have h1 : popInv (Simulator.stepSlice idx sim'.config.time_slice sim').organisms :=
        Simulator.stepSlice_popInv idx _ sim' (sim.find_next_organism_popInv idx sim' hf h)
      dsimp only
      split
      · split
        · exact popInv_reap _ h1
        · exact popInv_reap _ h1
      · split
        · exact h1
        · exact h1

/-- C6, amended: `increment_ip` and `set_ip` always land the IP inside
the home region `[address, address+size)` for every organism with
`size > 0`, and consequently `step()` preserves the invariant that every
live organism satisfies `address ≤ ip < address + size` (with positive
size).  The other half of the original claim, `address + size ≤ N`, does
not hold after every step (see the counterexample): `handle_divide`
never checks `bx`/`cx` against the soup size. -/
theorem C6_ip_containment (sim : Simulator) (h : popInv sim.organisms) :
    popInv sim.step.organisms ∧
      (∀ o : Organism, 0 < o.size → ipInv o.increment_ip) ∧
      ∀ (o : Organism) (addr : Nat), 0 < o.size → ipInv (o.set_ip addr) :=
  ⟨sim.step_popInv h, fun o hs => o.increment_ip_ipInv hs,
    fun o addr hs => o.set_ip_ipInv addr hs⟩

theorem C6_ip_containment_witness :
    popInv sim_div.organisms ∧ popInv sim_div.step.organisms ∧
      ipInv org_divA.increment_ip ∧ ipInv (org_divA.set_ip 100) :=
  ⟨by decide, (C6_ip_containment sim_div (by decide)).1,
    (C6_ip_containment sim_div (by decide)).2.1 org_divA (by decide),
    (C6_ip_containment sim_div (by decide)).2.2 org_divA 100 (by decide)⟩

end Tierra
